import Mathlib

/-!
Verification of the angular-proto core runtime ("Proto System").

The definitions below are a shallow embedding of
`src/core/src/lib/proto.ts` and `src/core/src/lib/proto-ancestry.ts`:
pure functions become Lean functions, the mutable descendant-set world
becomes explicit state passing, JavaScript reference identity becomes a
process-unique numeric id (the source assigns `uniqueId('proto')` to every
proto and registers one `selfEntry` object per node), and fallible
operations return `Except String`.

The deep-merge helper and the controlled-input container live in
`@angular-proto/core/utils`, whose implementation is not part of the
sources embedded here; those two definitions are modelled from the
specification and are marked as such in their doc comments.
-/

namespace AngularProto

/-! ## Node state slot and one-shot initialization (`proto.ts`, `initState`) -/

/-- Development-mode error message thrown by `initState` on a second call,
from `proto.ts` lines 242-245. -/
def doubleInitMsg (name : String) : String :=
  "[angular-proto] " ++ name ++ "Proto(instance) was called more than once. " ++
    name ++ "Proto(instance) should only be called once in the constructor."

/-- One-shot initialization of a node's state slot, embedding the
already-initialized guard of `initState` (`proto.ts` lines 236-248) and the
publish step (line 272).  The slot is the internal writable signal's value
(`null` before initialization); the result pairs the slot after the call
with the value readable through the returned public state handle. -/
def initState (isDevMode : Bool) (name : String) (slot : Option α)
    (inst : α) : Except String (Option α × α) :=
  match slot with
  | some existing =>
    if isDevMode then
      Except.error (doubleInitMsg name)
    else
      Except.ok (some existing, existing)
  | none => Except.ok (some inst, inst)

/-! ## Controlled value container (`@angular-proto/core/utils`) -/

/-- Modelled from the spec: the `controlledInput` / `ControlledInput`
implementation of `@angular-proto/core/utils` is not among the embedded
sources.  Spec §4.1 / §3: a controlled value "pairs a template-driven value
... with an optional override value and a flag marking whether the override
is active"; `Option` carries both the override value and the active flag. -/
structure ControlledValue (α : Type) where
  templateValue : α
  controlValue : Option α

/-- Modelled from the spec: whether the override is active (§4.1
`isControlled`). -/
def ControlledValue.isControlled (s : ControlledValue α) : Bool :=
  s.controlValue.isSome

/-- Modelled from the spec: "effective value accessor (reactive): override
if active, else template value" (§4.1). -/
def ControlledValue.effectiveValue (s : ControlledValue α) : α :=
  match s.controlValue with
  | some v => v
  | none => s.templateValue

/-- Modelled from the spec: "`control(value)`: activates the override with
the given value" (§4.1). -/
def ControlledValue.control (s : ControlledValue α) (v : α) : ControlledValue α :=
  { s with controlValue := some v }

/-- Modelled from the spec: "`reset()`: deactivates the override; effective
value reverts to the current template value" (§4.1). -/
def ControlledValue.reset (s : ControlledValue α) : ControlledValue α :=
  { s with controlValue := none }

/-- Modelled from the spec: a template update ("subsequent template updates
are tracked but not surfaced while active", §4.1). -/
def ControlledValue.setTemplate (s : ControlledValue α) (v : α) : ControlledValue α :=
  { s with templateValue := v }

/-! ## Ancestor entries, ancestry chain and descendant sets
(`proto-ancestry.ts` and `provideState` in `proto.ts`) -/

/-- An ancestor entry (`ProtoAncestorEntry`): the source pairs a kind token
with a reference to the node's state.  `kind` embeds the injection token
(`e.token === currentToken` comparisons), `id` embeds the reference
identity of the `selfEntry` / state object (the source gives every proto a
process-unique `uniqueId('proto')`), and `payload` stands for the
structural field values of the state. -/
structure Entry where
  id : Nat
  kind : Nat
  payload : Nat
  deriving DecidableEq, Repr

/-- The descendant-set world: for each node id, the current value of its
`ALL_CHILDREN` writable signal (`proto.ts` line 143), an insertion-ordered
list of ancestor entries. -/
def World : Type := Nat → List Entry

/-- Node creation registers `selfEntry` into every ancestor's descendant
signal: `cSignal.update(c => [...c, selfEntry])` for each `ancestor of
chain` (`proto.ts` lines 166-171).  `chain` is the list of ancestor node
ids. -/
def createNode (w : World) (chain : List Nat) (e : Entry) : World :=
  fun n => if n ∈ chain then w n ++ [e] else w n

/-- Node destruction: the `destroyRef.onDestroy` callback removes the entry
from every ancestor's descendant signal by reference identity,
`cSignal.update(c => c.filter(p => p !== selfEntry))` (`proto.ts` lines
171-173). -/
def destroyNode (w : World) (chain : List Nat) (e : Entry) : World :=
  fun n => if n ∈ chain then (w n).filter (fun p => p.id ≠ e.id) else w n

/-- The `children` view of a node: `computed(() =>
allChildrenSignal().filter(e => e.token === currentToken))`
(`proto-ancestry.ts` lines 76-78), read against the current descendant
set. -/
def sameTypeChildren (currentKind : Nat) (allChildren : List Entry) : List Entry :=
  allChildren.filter (fun e => e.kind == currentKind)

/-- The nearest-first ancestor list: `const ancestors =
[...parentChain].reverse()` (`proto-ancestry.ts` line 73); the inherited
chain is root-first because each node provides `[...chain, entry]`
(`proto.ts` line 209). -/
def ancestorsNearestFirst (parentChain : List Entry) : List Entry :=
  parentChain.reverse

/-- The `parent` getter: `ancestors.find(e => e.token === currentToken)`
over the nearest-first list (`proto-ancestry.ts` lines 90-97). -/
def parentLookup (parentChain : List Entry) (currentKind : Nat) : Option Entry :=
  (ancestorsNearestFirst parentChain).find? (fun e => e.kind == currentKind)

/-! ## `childrenOfType` cache (`proto-ancestry.ts` lines 129-140) -/

/-- The per-ancestry cache behind `childrenOfType`: `childrenByTypeCache`
maps a kind token to the computed signal created for it, and `next` is the
id the next freshly created signal object would get (object identity is
embedded as a numeric handle id). -/
structure AncestryCache where
  cache : List (Nat × Nat)
  next : Nat
  deriving DecidableEq, Repr

/-- `childrenOfType(token)`: return the cached signal if present, otherwise
create a new computed signal, cache it and return it (`proto-ancestry.ts`
lines 129-140).  Returns the handle id and the updated cache. -/
def childrenOfType (s : AncestryCache) (token : Nat) : Nat × AncestryCache :=
  match s.cache.lookup token with
  | some h => (h, s)
  | none => (s.next, ⟨(token, s.next) :: s.cache, s.next + 1⟩)

/-! ## Hook accumulation (`provideHooks`, `proto.ts` lines 310-318) -/

/-- The value of the hooks token at a scope, given the per-scope hook
contributions listed nearest-scope-first (the current scope's own hooks at
the head, the root's at the end).  Embeds the `provideHooks` factory:
`[...(parent ?? []), ...hooks]`, where `parent` is the token's value in the
enclosing scope (`skipSelf`). -/
def injectedHooks : List (List α) → List α
  | [] => []
  | own :: ancestors => injectedHooks ancestors ++ own

/-- Running a hook list over a state, embedding the `for (const hook of
hooks) hook(proto)` loop of `initState` (`proto.ts` lines 275-279). -/
def runHooks (hooks : List (σ → σ)) (s : σ) : σ :=
  hooks.foldl (fun st h => h st) s

/-! ## Required-lookup errors (`injectState`, `injectProtoAncestor`) -/

/-- Error message of `injectState` when the lookup is required and the node
was never initialized (`proto.ts` lines 228-230). -/
def injectStateMsg (name : String) : String :=
  name ++ " proto not initialized. Call " ++ name ++
    "Proto.initState() in your component or directive constructor."

/-- Error message of `injectProtoAncestor` when the lookup is required and
no ancestor provider exists (`proto-ancestry.ts` lines 168-171).  Note the
message is a fixed string, independent of the looked-up kind. -/
def requiredAncestorMsg : String :=
  "Required ancestor state not found. Ensure the parent proto is present in the DOM hierarchy."

/-- The `!state || !state()` test of `injectState` (`proto.ts` line 227):
the looked-up state is missing when no provider is in scope (`none`) or a
provider exists but the state slot is still null (`some none`). -/
def stateMissing : Option (Option α) → Bool
  | none => true
  | some none => true
  | some (some _) => false

/-- `injectState` (`proto.ts` lines 222-234): `st` is the result of
resolving the public token.  A required lookup with a missing or
uninitialized state throws; otherwise the handle (or `null`) is
returned. -/
def injectState (name : String) (optional : Bool) (st : Option (Option α)) :
    Except String (Option (Option α)) :=
  if !optional && stateMissing st then
    Except.error (injectStateMsg name)
  else
    Except.ok st

/-- `injectProtoAncestor` (`proto-ancestry.ts` lines 160-175): `st` is the
`skipSelf`+optional resolution of the kind's public token among ancestors;
a required lookup with no ancestor provider throws the fixed message. -/
def injectProtoAncestor (optional : Bool) (st : Option α) :
    Except String (Option α) :=
  if st.isNone && !optional then
    Except.error requiredAncestorMsg
  else
    Except.ok st

/-- `true` when `needle` occurs at the start of `hay`. -/
def startsWithL (needle hay : List Char) : Bool :=
  match needle, hay with
  | [], _ => true
  | _ :: _, [] => false
  | a :: as, b :: bs => a == b && startsWithL as bs

/-- `true` when `needle` occurs as a contiguous substring of `hay`; used to
state that an error message identifies (names) a node kind. -/
def containsSub (needle : List Char) : List Char → Bool
  | [] => startsWithL needle []
  | c :: rest => startsWithL needle (c :: rest) || containsSub needle rest

/-! ## Deep merge and hierarchical configuration
(`injectConfig` in `proto.ts`; merge helper from `@angular-proto/core/utils`) -/

/-- A deeply-structured configuration value: an integer leaf or an object
with string keys (association list).  Spec §3 "Configuration" / §4.2. -/
inductive CVal where
  | num : Int → CVal
  | obj : List (String × CVal) → CVal

/-- First binding for a key in an object's entry list. -/
def lookupKey : List (String × CVal) → String → Option CVal
  | [], _ => none
  | (k', v) :: rest, k => if k' == k then some v else lookupKey rest k

mutual

/-- Modelled from the spec: the `deepMerge` implementation of
`@angular-proto/core/utils` is not among the embedded sources.  Spec §4.2:
"for every leaf path, the right-most contribution that defines a value
wins, but contributions are merged key-by-key recursively rather than
replacing whole sub-objects wholesale ... missing keys fall back to the
next-outer value".  Two objects merge key-by-key; in every other case the
right value replaces the left. -/
def merge2 : CVal → CVal → CVal
  | _, CVal.num n => CVal.num n
  | CVal.num _, CVal.obj bs => CVal.obj bs
  | CVal.obj as, CVal.obj bs =>
    CVal.obj ((as.filter fun kv => (lookupKey bs kv.1).isNone) ++ mergeEntries as bs)

/-- Modelled from the spec (helper of `merge2`): each binding of the right
object, recursively merged with the left object's binding for the same key
when one exists. -/
def mergeEntries (as : List (String × CVal)) : List (String × CVal) → List (String × CVal)
  | [] => []
  | (k, v) :: rest =>
    (k,
      match lookupKey as k with
      | some av => merge2 av v
      | none => v) :: mergeEntries as rest

end

/-- Modelled from the spec: `deepMerge(default, ...contributions)` folds
the partial contributions over the default, left to right (§4.2: ordered
list of partials, right-most wins). -/
def deepMerge (dflt : CVal) (contributions : List CVal) : CVal :=
  contributions.foldl merge2 dflt

/-- `injectConfig` (`proto.ts` lines 301-308): the merged configuration is
`deepMerge(defaultCfg, ...contributions)` where `contributions` is the
multi-provider accumulation of every fragment provided from the root down
to the node, ordered root-most first. -/
def injectConfig (defaultCfg : CVal) (contributions : List CVal) : CVal :=
  deepMerge defaultCfg contributions

/-- Look a path up in a configuration value. -/
def getPath : CVal → List String → Option CVal
  | v, [] => some v
  | CVal.num _, _ :: _ => none
  | CVal.obj es, k :: rest =>
    match lookupKey es k with
    | some v => getPath v rest
    | none => none

/-- The integer leaf at a path, if the path ends at a leaf. -/
def getNumPath (v : CVal) (p : List String) : Option Int :=
  match getPath v p with
  | some (CVal.num n) => some n
  | _ => none

/-- The default `{a:{a:0,b:0,c:0}, b:{a:0,b:0,c:0}, c:0, d:0}` of the
config-hierarchy example (`proto-ancestry.ts` test lines 1022-1035). -/
def defaultCfg : CVal :=
  CVal.obj
    [("a", CVal.obj [("a", CVal.num 0), ("b", CVal.num 0), ("c", CVal.num 0)]),
     ("b", CVal.obj [("a", CVal.num 0), ("b", CVal.num 0), ("c", CVal.num 0)]),
     ("c", CVal.num 0), ("d", CVal.num 0)]

/-- The grandparent contribution `{a:{a:1}}` of the example. -/
def grandparentContribution : CVal :=
  CVal.obj [("a", CVal.obj [("a", CVal.num 1)])]

/-- The parent contribution `{b:{a:2,b:2}}` of the example. -/
def parentContribution : CVal :=
  CVal.obj [("b", CVal.obj [("a", CVal.num 2), ("b", CVal.num 2)])]

/-- The self contribution `{a:{b:3}, b:{b:3,c:3}, c:3}` of the example. -/
def selfContribution : CVal :=
  CVal.obj
    [("a", CVal.obj [("b", CVal.num 3)]),
     ("b", CVal.obj [("b", CVal.num 3), ("c", CVal.num 3)]),
     ("c", CVal.num 3)]

/-- The merged configuration of the example node: contributions applied
root-most first (grandparent, parent, self). -/
def mergedExample : CVal :=
  injectConfig defaultCfg [grandparentContribution, parentContribution, selfContribution]

/-! ## Public/internal state token aliasing (`provideState`, `proto.ts`
lines 179-194) -/

/-- The writable proto-state object: `hasSet`/`hasUpdate` record whether
the `set`/`update` mutators are still present on the object, `value`
stands for the rest of its fields. -/
structure PObj where
  hasSet : Bool
  hasUpdate : Bool
  value : Nat
  deriving DecidableEq, Repr

/-- The public-token factory (`proto.ts` lines 180-194): it injects the
object behind the internal token, deletes `set` and `update` from that
very object, and returns it.  The heap maps references to objects;
`internalRef` is the reference held by the internal token.  Returns the
updated heap and the reference the public token now resolves to. -/
def resolvePublicToken (heap : Nat → PObj) (internalRef : Nat) : (Nat → PObj) × Nat :=
  let o := heap internalRef
  (fun n => if n = internalRef then { o with hasSet := false, hasUpdate := false } else heap n,
    internalRef)

end AngularProto

/-! ## Theorems -/

namespace AngularProto

/-! ### Shared helper lemmas -/

/-- `find?` returns the head of the filtered list. -/
theorem find?_eq_head?_filter (p : α → Bool) (l : List α) :
    l.find? p = (l.filter p).head? := by
  induction l with
  | nil => rfl
  | cons a t ih =>
    by_cases h : p a = true
    · rw [List.find?_cons_of_pos _ h, List.filter_cons_of_pos h, List.head?_cons]
    · have h' : p a = false := by simpa using h
      rw [List.find?_cons_of_neg _ (by simp [h']), List.filter_cons_of_neg (by simp [h']), ih]

/-- A list starts with itself followed by anything. -/
theorem startsWithL_append_self (n r : List Char) : startsWithL n (n ++ r) = true := by
  induction n with
  | nil => rfl
  | cons c t ih => simp [startsWithL, ih]

/-- A list contains any of its initial segments as a substring. -/
theorem containsSub_append_self (n r : List Char) : containsSub n (n ++ r) = true := by
  cases hnr : n ++ r with
  | nil =>
    have hn : n = [] := by
      cases n with
      | nil => rfl
      | cons c t => simp at hnr
    simp [hn, containsSub, startsWithL]
  | cons c rest =>
    have h := startsWithL_append_self n r
    rw [hnr] at h
    simp [containsSub, h]

/-- `injectedHooks` turns list concatenation (outer scopes to the right)
into reversed concatenation of the accumulated hooks. -/
theorem injectedHooks_append (l₁ l₂ : List (List α)) :
    injectedHooks (l₁ ++ l₂) = injectedHooks l₂ ++ injectedHooks l₁ := by
  induction l₁ with
  | nil => simp [injectedHooks]
  | cons s t ih => simp [injectedHooks, ih]

/-- `lookupKey` over an appended entry list: the left list wins. -/
theorem lookupKey_append (l₁ l₂ : List (String × CVal)) (k : String) :
    lookupKey (l₁ ++ l₂) k =
      match lookupKey l₁ k with
      | some v => some v
      | none => lookupKey l₂ k := by
  induction l₁ with
  | nil => simp [lookupKey]
  | cons kv t ih =>
    obtain ⟨k', v⟩ := kv
    by_cases h : k' == k
    · simp [lookupKey, h]
    · simp only [Bool.not_eq_true] at h
      simp [lookupKey, h, ih]

/-- Looking up a key in `mergeEntries as bs` finds the (recursively
merged) binding exactly when `bs` binds the key. -/
theorem lookupKey_mergeEntries (as bs : List (String × CVal)) (k : String) :
    lookupKey (mergeEntries as bs) k =
      match lookupKey bs k with
      | some v =>
        some (match lookupKey as k with
              | some av => merge2 av v
              | none => v)
      | none => none := by
  induction bs with
  | nil => simp [mergeEntries, lookupKey]
  | cons kv rest ih =>
    obtain ⟨k', v⟩ := kv
    by_cases h : k' == k
    · have hk : k' = k := by simpa using h
      subst hk
      simp [mergeEntries, lookupKey]
    · simp only [Bool.not_eq_true] at h
      simp [mergeEntries, lookupKey, h, ih]

/-- Keys bound in `bs` are dropped from the not-overridden part of a
merged object. -/
theorem lookupKey_filter_overridden (as bs : List (String × CVal)) (k : String)
    (v : CVal) (h : lookupKey bs k = some v) :
    lookupKey (as.filter fun kv => (lookupKey bs kv.1).isNone) k = none := by
  induction as with
  | nil => simp [lookupKey]
  | cons kv t ih =>
    obtain ⟨k', v'⟩ := kv
    by_cases hk : k' == k
    · have : lookupKey bs k' = some v := by
        have : k' = k := by simpa using hk
        simpa [this] using h
      simp [List.filter, this, ih]
    · simp only [Bool.not_eq_true] at hk
      by_cases hp : (lookupKey bs k').isNone
      · simp [List.filter, hp, lookupKey, hk, ih]
      · simp only [Bool.not_eq_true] at hp
        simp [List.filter, hp, ih]

/-- Keys not bound in `bs` keep their `as` binding in the not-overridden
part of a merged object. -/
theorem lookupKey_filter_fallback (as bs : List (String × CVal)) (k : String)
    (h : lookupKey bs k = none) :
    lookupKey (as.filter fun kv => (lookupKey bs kv.1).isNone) k = lookupKey as k := by
  induction as with
  | nil => simp
  | cons kv t ih =>
    obtain ⟨k', v'⟩ := kv
    by_cases hk : k' == k
    · have hbs : lookupKey bs k' = none := by
        have : k' = k := by simpa using hk
        simpa [this] using h
      simp [List.filter, hbs, lookupKey, hk]
    · simp only [Bool.not_eq_true] at hk
      by_cases hp : (lookupKey bs k').isNone
      · simp [List.filter, hp, lookupKey, hk, ih]
      · simp only [Bool.not_eq_true] at hp
        simp [List.filter, hp, lookupKey, hk, ih]

/-- Deep nearest-wins: a leaf defined by the right-hand value survives any
merge, whatever the left-hand value. -/
theorem merge2_leaf_wins (p : List String) :
    ∀ (a b : CVal) (n : Int), getNumPath b p = some n →
      getNumPath (merge2 a b) p = some n := by
  induction p with
  | nil =>
    intro a b n h
    have hb : b = CVal.num n := by
      cases b with
      | num m => simpa [getNumPath, getPath] using congrArg (fun x => x) h
      | obj es => simp [getNumPath, getPath] at h
    subst hb
    cases a <;> simp [merge2, getNumPath, getPath]
  | cons k rest ih =>
    intro a b n h
    cases b with
    | num m => simp [getNumPath, getPath] at h
    | obj bs =>
      simp only [getNumPath, getPath] at h
      cases hv : lookupKey bs k with
      | none => rw [hv] at h; simp at h
      | some v =>
        rw [hv] at h
        cases a with
        | num m => simpa [merge2, getNumPath, getPath, hv] using h
        | obj as =>
          have hover := lookupKey_filter_overridden as bs k v hv
          have hme := lookupKey_mergeEntries as bs k
          rw [hv] at hme
          simp only [merge2, getNumPath, getPath, lookupKey_append, hover, hme]
          cases hav : lookupKey as k with
          | none =>
            rw [hav] at hme
            simpa [getNumPath] using h
          | some av =>
            rw [hav] at hme
            have := ih av v n (by simpa [getNumPath] using h)
            simpa [getNumPath, hav] using this

/-! ### Claim theorems -/

/-- C1: calling the initializer when the state slot is already non-null
raises the usage error in development mode, and in production mode leaves
the slot unchanged and returns the existing public state value. -/
theorem initState_second_call (name : String) (existing inst : α) :
    initState true name (some existing) inst = Except.error (doubleInitMsg name) ∧
    initState false name (some existing) inst = Except.ok (some existing, existing) := by
  constructor <;> rfl

/-- C2: the merged configuration is the deep merge of the default with the
root-most-first contribution list; a leaf defined by a nearer contribution
wins over any farther value, a key untouched by the nearer contribution
falls back to the farther value, and on the grandparent/parent/self
example the merge yields `{a:{a:1,b:3,c:0}, b:{a:2,b:3,c:3}, c:3, d:0}`. -/
theorem config_merge_precedence :
    (∀ (dcfg : CVal) (contribs : List CVal),
        injectConfig dcfg contribs = deepMerge dcfg contribs) ∧
    (∀ (p : List String) (a b : CVal) (n : Int),
        getNumPath b p = some n → getNumPath (merge2 a b) p = some n) ∧
    (∀ (as bs : List (String × CVal)) (k : String),
        lookupKey bs k = none →
          getPath (merge2 (CVal.obj as) (CVal.obj bs)) [k] = getPath (CVal.obj as) [k]) ∧
    (getNumPath mergedExample ["a", "a"] = some 1 ∧
     getNumPath mergedExample ["a", "b"] = some 3 ∧
     getNumPath mergedExample ["a", "c"] = some 0 ∧
     getNumPath mergedExample ["b", "a"] = some 2 ∧
     getNumPath mergedExample ["b", "b"] = some 3 ∧
     getNumPath mergedExample ["b", "c"] = some 3 ∧
     getNumPath mergedExample ["c"] = some 3 ∧
     getNumPath mergedExample ["d"] = some 0) := by
  refine ⟨fun _ _ => rfl, merge2_leaf_wins, ?_, by decide⟩
  intro as bs k h
  have hfb := lookupKey_filter_fallback as bs k h
  have hme := lookupKey_mergeEntries as bs k
  rw [h] at hme
  simp only [merge2, getPath, lookupKey_append, hfb, hme]
  cases lookupKey as k <;> simp

/-- C2 witness: the nearest-wins conjunct applied to the default config and
the self contribution at leaf path `b.c`. -/
theorem config_merge_precedence_witness :
    getNumPath selfContribution ["b", "c"] = some 3 ∧
    getNumPath (merge2 defaultCfg selfContribution) ["b", "c"] = some 3 :=
  ⟨by decide,
   config_merge_precedence.2.1 ["b", "c"] defaultCfg selfContribution 3 (by decide)⟩

/-- C3: the hook list of a scope is the enclosing scope's hook list
concatenated with the scope's own hooks; accumulated over the whole chain
this is the root-to-leaf flattening of the per-scope contributions, and
running the list executes every ancestor-contributed hook before the own
scope's hooks. -/
theorem hooks_root_to_leaf {α σ : Type} :
    (∀ (anc : List (List α)) (own : List α),
        injectedHooks (own :: anc) = injectedHooks anc ++ own) ∧
    (∀ scopes : List (List α), injectedHooks scopes.reverse = scopes.flatten) ∧
    (∀ (anc : List (List (σ → σ))) (own : List (σ → σ)) (s : σ),
        runHooks (injectedHooks (own :: anc)) s =
          runHooks own (runHooks (injectedHooks anc) s)) := by
  refine ⟨fun _ _ => rfl, ?_, ?_⟩
  · intro scopes
    induction scopes with
    | nil => rfl
    | cons s t ih =>
      simp [List.reverse_cons, injectedHooks_append, injectedHooks, ih]
  · intro anc own s
    simp [injectedHooks, runHooks, List.foldl_append]

/-- C4: destroying a node removes, from every ancestor's descendant set,
exactly the entries with the destroyed node's identity: membership
afterwards is membership before plus a different id, non-ancestors' sets
are untouched, and a structurally identical sibling entry (same kind and
payload, different id) is never removed. -/
theorem destroy_removes_by_identity (w : World) (chain : List Nat) (e x : Entry)
    (a : Nat) (ha : a ∈ chain) :
    (x ∈ destroyNode w chain e a ↔ x ∈ w a ∧ x.id ≠ e.id) ∧
    (∀ b, b ∉ chain → destroyNode w chain e b = w b) ∧
    (x.kind = e.kind → x.payload = e.payload → x.id ≠ e.id → x ∈ w a →
      x ∈ destroyNode w chain e a) := by
  refine ⟨?_, ?_, ?_⟩
  · simp [destroyNode, ha, List.mem_filter]
  · intro b hb
    simp [destroyNode, hb]
  · intro _ _ hid hmem
    simp [destroyNode, ha, List.mem_filter, hmem, hid]

/-- C4 witness: destroying entry id 1 from an ancestor's set keeps the
structurally identical sibling entry id 2 and removes entry id 1. -/
theorem destroy_removes_by_identity_witness :
    (0 ∈ ([0] : List Nat)) ∧
    Entry.mk 2 5 9 ∈
      destroyNode (fun _ => [Entry.mk 1 5 9, Entry.mk 2 5 9]) [0] (Entry.mk 1 5 9) 0 ∧
    Entry.mk 1 5 9 ∉
      destroyNode (fun _ => [Entry.mk 1 5 9, Entry.mk 2 5 9]) [0] (Entry.mk 1 5 9) 0 := by
  refine ⟨by decide, ?_, ?_⟩
  · exact (destroy_removes_by_identity (fun _ => [Entry.mk 1 5 9, Entry.mk 2 5 9]) [0]
      (Entry.mk 1 5 9) (Entry.mk 2 5 9) 0 (by decide)).1.mpr ⟨by decide, by decide⟩
  · intro hmem
    exact ((destroy_removes_by_identity (fun _ => [Entry.mk 1 5 9, Entry.mk 2 5 9]) [0]
      (Entry.mk 1 5 9) (Entry.mk 1 5 9) 0 (by decide)).1.mp hmem).2 rfl

/-- C5: `parent` is the nearest (first in nearest-first order) ancestry
entry of the node's own kind, and inserting a different-kind entry
anywhere in the chain does not change what `parent` resolves to. -/
theorem parent_nearest_same_kind (c₁ c₂ : List Entry) (x : Entry) (k : Nat)
    (hx : x.kind ≠ k) :
    (∀ chain : List Entry,
        parentLookup chain k =
          ((ancestorsNearestFirst chain).filter (fun e => e.kind == k)).head?) ∧
    parentLookup (c₁ ++ [x] ++ c₂) k = parentLookup (c₁ ++ c₂) k := by
  constructor
  · intro chain
    exact find?_eq_head?_filter _ _
  · have hxk : (x.kind == k) = false := by simpa using hx
    simp [parentLookup, ancestorsNearestFirst, List.find?_append, List.find?, hxk]

/-- C5 witness: inserting the kind-9 entry id 2 after the kind-7 entry id 1
leaves the kind-7 parent resolution unchanged. -/
theorem parent_nearest_same_kind_witness :
    (Entry.mk 2 9 0).kind ≠ 7 ∧
    parentLookup [Entry.mk 1 7 0, Entry.mk 2 9 0] 7 = parentLookup [Entry.mk 1 7 0] 7 := by
  refine ⟨by decide, ?_⟩
  have h := parent_nearest_same_kind [Entry.mk 1 7 0] [] (Entry.mk 2 9 0) 7 (by decide)
  simpa using h.2

/-- C6: a node's `children` view is exactly the same-kind subset of its
descendant set; creating a descendant below any ancestor (at any depth)
appends it to that view when its kind matches, and destroying it removes
it again on the next read. -/
theorem children_same_kind_descendants (w : World) (chain : List Nat) (e : Entry)
    (a k : Nat) (ha : a ∈ chain) :
    (∀ x, x ∈ sameTypeChildren k (w a) ↔ x ∈ w a ∧ x.kind = k) ∧
    sameTypeChildren k (createNode w chain e a) =
      sameTypeChildren k (w a) ++ (if e.kind == k then [e] else []) ∧
    sameTypeChildren k (destroyNode w chain e a) =
      (sameTypeChildren k (w a)).filter (fun p => p.id ≠ e.id) := by
  refine ⟨?_, ?_, ?_⟩
  · intro x
    simp [sameTypeChildren, List.mem_filter]
  · by_cases hek : (e.kind == k) = true
    · simp [sameTypeChildren, createNode, ha, List.filter_append, hek]
    · have hek' : (e.kind == k) = false := by simpa using hek
      simp [sameTypeChildren, createNode, ha, List.filter_append, hek']
  · simp only [sameTypeChildren, destroyNode, if_pos ha]
    rw [List.filter_filter, List.filter_filter]
    simp [Bool.and_comm]

/-- C6 witness: a kind-7 node registered below both the depth-1 and the
depth-2 ancestor appears in the depth-2 ancestor's `children` view. -/
theorem children_same_kind_descendants_witness :
    (0 ∈ ([0, 1] : List Nat)) ∧
    sameTypeChildren 7 (createNode (fun _ => ([] : List Entry)) [0, 1] (Entry.mk 3 7 0) 0) =
      [Entry.mk 3 7 0] := by
  refine ⟨by decide, ?_⟩
  have h := children_same_kind_descendants (fun _ => ([] : List Entry)) [0, 1]
    (Entry.mk 3 7 0) 0 7 (by decide)
  rw [h.2.1]
  decide

/-- C7: `childrenOfType` caches its reactive handle per kind token: a
second call with the same token returns the identical handle. -/
theorem childrenOfType_handle_cached (s : AncestryCache) (t : Nat) :
    (childrenOfType ((childrenOfType s t).2) t).1 = (childrenOfType s t).1 := by
  cases h : s.cache.lookup t with
  | some hd => simp [childrenOfType, h]
  | none => simp [childrenOfType, h, List.lookup]

/-- C8: the effective value is the override while active and the template
value otherwise; after `control(v)` it is `v` and stays `v` under template
changes, and after `reset()` it tracks the template value again. -/
theorem controlled_value_precedence (s : ControlledValue α) (v w : α) :
    ((s.control v).effectiveValue = v) ∧
    (((s.control v).setTemplate w).effectiveValue = v) ∧
    (((s.control v).setTemplate w).reset.effectiveValue = w) ∧
    (s.isControlled = true → s.controlValue = some s.effectiveValue) ∧
    (s.isControlled = false → s.effectiveValue = s.templateValue) := by
  refine ⟨rfl, rfl, rfl, ?_, ?_⟩
  · intro h
    cases hc : s.controlValue with
    | some v' => simp [ControlledValue.effectiveValue, hc]
    | none => simp [ControlledValue.isControlled, hc] at h
  · intro h
    cases hc : s.controlValue with
    | some v' => simp [ControlledValue.isControlled, hc] at h
    | none => simp [ControlledValue.effectiveValue, hc]

/-- C8 witness: with template value `false` and no override the effective
value is the template value, and after `control true` a template change to
`false` leaves the effective value `true`. -/
theorem controlled_value_precedence_witness :
    (ControlledValue.mk false none).isControlled = false ∧
    (ControlledValue.mk false none).effectiveValue =
      (ControlledValue.mk false none).templateValue ∧
    (((ControlledValue.mk false none).control true).setTemplate false).effectiveValue = true := by
  have h := controlled_value_precedence (ControlledValue.mk false none) true false
  exact ⟨by decide, h.2.2.2.2 (by decide), h.2.1⟩

/-- C9 counterexample: a required `injectProtoAncestor` lookup for a node
kind named `Hover` with no ancestor provider does fail synchronously, but
the message is the fixed string, which does not mention the kind. -/
theorem requiredAncestor_msg_lacks_kind :
    injectProtoAncestor (α := Unit) false none = Except.error requiredAncestorMsg ∧
    containsSub "Hover".data requiredAncestorMsg.data = false := by
  constructor
  · rfl
  · decide

/-- C9 (amended): a required `injectState` lookup with no provider or an
uninitialized state fails synchronously with a message naming the node
kind, and a required `injectProtoAncestor` lookup with no ancestor
provider fails synchronously with the fixed remediation message (which
does not name the kind). -/
theorem required_lookup_errors (name : String) (st : Option (Option α))
    (h : stateMissing st = true) :
    injectState name false st = Except.error (injectStateMsg name) ∧
    containsSub name.data (injectStateMsg name).data = true ∧
    injectProtoAncestor (α := Unit) false none = Except.error requiredAncestorMsg := by
  refine ⟨?_, ?_, rfl⟩
  · simp [injectState, h]
  · have hdata : (injectStateMsg name).data =
        name.data ++ (" proto not initialized. Call " ++ name ++
          "Proto.initState() in your component or directive constructor.").data := by
      simp [injectStateMsg, String.data_append, List.append_assoc]
    rw [hdata]
    exact containsSub_append_self _ _

/-- C9 witness: the amended theorem at kind name `Hover` with a missing
provider. -/
theorem required_lookup_errors_witness :
    stateMissing (none : Option (Option Unit)) = true ∧
    injectState "Hover" false (none : Option (Option Unit)) =
      Except.error (injectStateMsg "Hover") ∧
    containsSub "Hover".data (injectStateMsg "Hover").data = true := by
  have h := required_lookup_errors (α := Unit) "Hover" none rfl
  exact ⟨rfl, h.1, h.2.1⟩

/-- C10: resolving the public token returns the very reference held by the
internal token, with `set` and `update` deleted from that shared object
(its other fields intact), so the internal token's object loses its
mutators too; no other object is affected. -/
theorem public_state_aliases_internal (heap : Nat → PObj) (ref : Nat) :
    (resolvePublicToken heap ref).2 = ref ∧
    ((resolvePublicToken heap ref).1 ref).hasSet = false ∧
    ((resolvePublicToken heap ref).1 ref).hasUpdate = false ∧
    ((resolvePublicToken heap ref).1 ref).value = (heap ref).value ∧
    (∀ n, n ≠ ref → (resolvePublicToken heap ref).1 n = heap n) := by
  refine ⟨rfl, by simp [resolvePublicToken], by simp [resolvePublicToken],
    by simp [resolvePublicToken], ?_⟩
  intro n hn
  simp [resolvePublicToken, hn]

/-- C10 witness: a concrete heap with mutators present everywhere, resolved
at reference 0. -/
theorem public_state_aliases_internal_witness :
    ((1 : Nat) ≠ 0) ∧
    (resolvePublicToken (fun _ => PObj.mk true true 7) 0).2 = 0 ∧
    ((resolvePublicToken (fun _ => PObj.mk true true 7) 0).1 0).hasSet = false ∧
    ((resolvePublicToken (fun _ => PObj.mk true true 7) 0).1 1) = PObj.mk true true 7 := by
  have h := public_state_aliases_internal (fun _ => PObj.mk true true 7) 0
  exact ⟨by decide, h.1, h.2.1, h.2.2.2.2 1 (by decide)⟩

end AngularProto
